import Mathlib

/-!
Verification of the AliExpress-bot repository against its specification.

The Python sources are shallowly embedded:
* Python `str` values are modelled as Lean `String` (sequences of code points);
  where convenient we work on the underlying `List Char`.
* Python `float` money/rating values are modelled as exact rationals `ℚ`
  (the spec calls them "decimals"); all concrete constants in the source
  (`0.19`, `2.99`, …) are exactly representable.
* Fallible operations return `Option`; Python's `None` is `none`.
* The remote HTTP search is modelled as an explicit oracle argument
  `String → Nat → Option (List AEProduct)` mapping (keywords, page_size)
  to the (optional) list of products of the response.
-/

namespace AliExpressBot

/-! ## `aliexpress_api.calculate_total_price` (src/aliexpress_api.py:223-246)

```python
def calculate_total_price(self, base_price, shipping_cost=0):
    if shipping_cost == 0:
        if base_price < 10: shipping_cost = 2.99
        elif base_price < 50: shipping_cost = 5.99
        else: shipping_cost = 9.99
    subtotal = base_price + shipping_cost
    tax_rate = 0.19
    tax_amount = subtotal * tax_rate
    total = subtotal + tax_amount
    return {...}
```
The Python default argument `shipping_cost=0` is modelled by the caller
passing `0` explicitly; the two are indistinguishable in the source. -/

structure PriceBreakdown where
  base_price : ℚ
  shipping_cost : ℚ
  subtotal : ℚ
  tax_amount : ℚ
  total : ℚ
deriving DecidableEq

def calculate_total_price (base_price : ℚ) (shipping_cost : ℚ) : PriceBreakdown :=
  let shipping_cost :=
    if shipping_cost = 0 then
      if base_price < 10 then 2.99
      else if base_price < 50 then 5.99
      else 9.99
    else shipping_cost
  let subtotal := base_price + shipping_cost
  let tax_rate : ℚ := 0.19
  let tax_amount := subtotal * tax_rate
  let total := subtotal + tax_amount
  ⟨base_price, shipping_cost, subtotal, tax_amount, total⟩

/-! ## `formatter._format_rating_section` star count (src/formatter.py:160-185)

```python
if avg_rating:
    stars = "⭐" * int(float(avg_rating))
```
`int(float(x))` truncates toward zero; `pyInt` models Python `int()` on the
rational modelling the float.  `star_count` is the repetition count of the
star character in the rendered rating line. -/

def pyInt (q : ℚ) : ℤ :=
  if 0 ≤ q then ⌊q⌋ else -⌊-q⌋

def star_count (avg_rating : ℚ) : ℤ := pyInt avg_rating

/-- Python `s * n` for `n ≤ 0` is the empty string. -/
def repeatStr (s : String) (n : ℤ) : String :=
  ⟨(List.replicate n.toNat s.data).flatten⟩

def rating_stars (avg_rating : ℚ) : String := repeatStr "⭐" (star_count avg_rating)

/-- Python truthiness of the optional numeric field (`None`, `0` falsy). -/
def truthyQ : Option ℚ → Bool
  | none => false
  | some q => q != 0

def truthyN : Option ℕ → Bool
  | none => false
  | some n => n != 0

/-- The rating section: empty when both fields are falsy, otherwise the
header plus one line per truthy field.  The textual rendering of the
numeric rating itself is approximated by `toString`; the claims under
verification concern only the star count. -/
def format_rating_section (avg_rating : Option ℚ) (evaluation_count : Option ℕ) : String :=
  if !truthyQ avg_rating && !truthyN evaluation_count then ""
  else
    let s := "⭐ **التقييمات:**\n"
    let s := match avg_rating with
      | some q =>
          if truthyQ (some q) then
            s ++ "• التقييم: " ++ rating_stars q ++ " (" ++ toString q ++ "/5)\n"
          else s
      | none => s
    let s := match evaluation_count with
      | some n =>
          if truthyN (some n) then s ++ "• عدد المراجعات: " ++ toString n ++ "\n" else s
      | none => s
    s ++ "\n"

end AliExpressBot

namespace AliExpressBot

example : (calculate_total_price 5 0).shipping_cost = 2.99 := by
  norm_num [calculate_total_price]
example : (calculate_total_price 70 0).shipping_cost = 9.99 := by
  norm_num [calculate_total_price]
example : star_count (7/2) = 3 := by norm_num [star_count, pyInt]

/-- C8, counterexample: the code's tax rate is `0.19` (19% VAT), not `0.1`,
so `calculate_total_price 20 5` does not return `taxAmount = 2.5` and
`total = 27.5` as the claim states. -/
theorem C8_counterexample :
    ¬ ((calculate_total_price 20 5).tax_amount = 2.5 ∧
       (calculate_total_price 20 5).total = 27.5) := by
  intro h
  have := h.1
  norm_num [calculate_total_price] at this

/-- C8, amended: the tax rate is the fixed `0.19`, so
`calculate_total_price 20 5` yields `subtotal = 25`, `taxAmount = 4.75`,
`total = 29.75` (re-computation with the same inputs trivially yields the
same result, the function being pure); in general the returned breakdown
satisfies `subtotal = base + shippingCost` and
`total = subtotal + taxAmount` (over the returned fields), and every field
is non-negative for non-negative inputs. -/
theorem C8_price_breakdown :
    calculate_total_price 20 5 = ⟨20, 5, 25, 4.75, 29.75⟩
    ∧ (∀ b s : ℚ,
        (calculate_total_price b s).subtotal =
          (calculate_total_price b s).base_price +
            (calculate_total_price b s).shipping_cost
        ∧ (calculate_total_price b s).total =
            (calculate_total_price b s).subtotal +
              (calculate_total_price b s).tax_amount)
    ∧ (∀ b s : ℚ, 0 ≤ b → 0 ≤ s →
        0 ≤ (calculate_total_price b s).base_price
        ∧ 0 ≤ (calculate_total_price b s).shipping_cost
        ∧ 0 ≤ (calculate_total_price b s).subtotal
        ∧ 0 ≤ (calculate_total_price b s).tax_amount
        ∧ 0 ≤ (calculate_total_price b s).total) := by
  refine ⟨?_, ?_, ?_⟩
  · simp only [calculate_total_price]
    norm_num
  · intro b s
    exact ⟨rfl, rfl⟩
  · intro b s hb hs
    simp only [calculate_total_price]
    have hship : (0:ℚ) ≤ (if s = 0 then
        if b < 10 then 2.99 else if b < 50 then 5.99 else 9.99 else s) := by
      split_ifs <;> first | exact hs | norm_num
    have hsub : (0:ℚ) ≤ b + (if s = 0 then
        if b < 10 then 2.99 else if b < 50 then 5.99 else 9.99 else s) :=
      add_nonneg hb hship
    refine ⟨hb, hship, hsub, ?_, ?_⟩
    · exact mul_nonneg hsub (by norm_num)
    · exact add_nonneg hsub (mul_nonneg hsub (by norm_num))

/-- C8, witness for the amended theorem at `b = 1`, `s = 2`. -/
theorem C8_price_breakdown_witness :
    0 ≤ (calculate_total_price 1 2).total :=
  (C8_price_breakdown.2.2 1 2 (by norm_num) (by norm_num)).2.2.2.2

/-- C9: when the supplied shipping cost is `0` (whether defaulted or passed
explicitly — the source's `shipping_cost == 0` test cannot distinguish the
two), the three-tier heuristic (`2.99` if `base < 10`, `5.99` if
`base < 50`, else `9.99`) replaces it, so the `shipping_cost` field of the
returned breakdown is strictly positive. -/
theorem C9_zero_shipping_heuristic :
    ∀ base : ℚ,
      (calculate_total_price base 0).shipping_cost =
        (if base < 10 then 2.99 else if base < 50 then 5.99 else 9.99)
      ∧ 0 < (calculate_total_price base 0).shipping_cost := by
  intro base
  simp only [calculate_total_price, if_pos rfl]
  refine ⟨rfl, ?_⟩
  split_ifs <;> norm_num

/-- C4, counterexample: the rendered star count is `int(float(avg_rating))`
with no clamping and no percentage scaling: a direct rating of `0.5` yields
`0` stars (below the claimed minimum of 1), and a percentage-style rating
of `92` yields `92` stars (far above the claimed maximum of 5). -/
theorem C4_counterexample :
    star_count (1/2) < 1 ∧ 5 < star_count 92 := by
  constructor <;> norm_num [star_count, pyInt]

/-- C4, amended: the rating section renders exactly `⌊rating⌋` stars
(truncation toward zero of the raw value), with no lower clamp at 1, no
upper clamp, and no percentage-of-100 scaling; consequently for a direct
rating in `[0, 5]` the star count lies in `[0, 5]` (and can be `0`). -/
theorem C4_star_count_truncates :
    ∀ r : ℚ, 0 ≤ r → r ≤ 5 →
      star_count r = ⌊r⌋ ∧ 0 ≤ star_count r ∧ star_count r ≤ 5 := by
  intro r h0 h5
  have he : star_count r = ⌊r⌋ := by simp [star_count, pyInt, h0]
  refine ⟨he, ?_, ?_⟩
  · rw [he]; exact Int.floor_nonneg.mpr h0
  · rw [he]
    calc ⌊r⌋ ≤ ⌊(5:ℚ)⌋ := Int.floor_le_floor h5
    _ = 5 := by norm_num

/-- C4, witness for the amended theorem at rating `7/2`. -/
theorem C4_star_count_truncates_witness :
    star_count (7/2) = ⌊(7/2 : ℚ)⌋ ∧ 0 ≤ star_count (7/2) ∧ star_count (7/2) ≤ 5 :=
  C4_star_count_truncates (7/2) (by norm_num) (by norm_num)

/-! ## `formatter.split_message` (src/formatter.py:299-327)

```python
def split_message(self, message):
    if len(message) <= self.max_message_length: return [message]
    chunks = []; current_chunk = ""
    lines = message.split('\n')
    for line in lines:
        if len(current_chunk) + len(line) + 1 > self.max_message_length:
            if current_chunk:
                chunks.append(current_chunk.strip()); current_chunk = line + '\n'
            else:
                while len(line) > self.max_message_length:
                    chunks.append(line[:self.max_message_length])
                    line = line[self.max_message_length:]
                current_chunk = line + '\n'
        else:
            current_chunk += line + '\n'
    if current_chunk.strip(): chunks.append(current_chunk.strip())
    return chunks
```
`message.split('\n')` keeps empty segments (`splitOnChar`); `str.strip()`
removes leading/trailing whitespace (`pyStrip`). -/

def max_message_length : Nat := 4096

def isPySpace (c : Char) : Bool := c.isWhitespace

def pyStrip (l : List Char) : List Char :=
  ((l.dropWhile isPySpace).reverse.dropWhile isPySpace).reverse

/-- Python `str.split(sep)` for a one-character separator: keeps empty
segments, never returns an empty list. -/
def splitOnChar (sep : Char) : List Char → List (List Char)
  | [] => [[]]
  | c :: rest =>
    if c == sep then [] :: splitOnChar sep rest
    else
      match splitOnChar sep rest with
      | g :: gs => (c :: g) :: gs
      | [] => [[c]]

/-- The inner `while len(line) > limit` loop: returns the hard-sliced
limit-sized pieces and the remaining tail of the line. -/
def hardSlice (line : List Char) : List (List Char) × List Char :=
  if h : max_message_length < line.length then
    let r := hardSlice (line.drop max_message_length)
    (line.take max_message_length :: r.1, r.2)
  else ([], line)
termination_by line.length
decreasing_by
  simp only [List.length_drop, max_message_length] at *
  omega

/-- The `for line in lines` loop, threading `(chunks, current_chunk)`. -/
def splitLoop : List (List Char) → List (List Char) → List Char →
    List (List Char) × List Char
  | [], chunks, current => (chunks, current)
  | line :: lines, chunks, current =>
    if max_message_length < current.length + line.length + 1 then
      if current = [] then
        let r := hardSlice line
        splitLoop lines (chunks ++ r.1) (r.2 ++ ['\n'])
      else
        splitLoop lines (chunks ++ [pyStrip current]) (line ++ ['\n'])
    else
      splitLoop lines chunks (current ++ line ++ ['\n'])

def split_message (message : String) : List String :=
  if message.length ≤ max_message_length then [message]
  else
    let r := splitLoop (splitOnChar '\n' message.data) [] []
    let chunks := if pyStrip r.2 = [] then r.1 else r.1 ++ [pyStrip r.2]
    chunks.map fun l => ⟨l⟩

/-- Reinserting the newlines between the returned chunks (the round-trip
direction of the chunking invariant). -/
def joinWithNewlines : List String → String
  | [] => ""
  | [c] => c
  | c :: cs => c ++ "\n" ++ joinWithNewlines cs

/-- A short first line followed by a 4097-character line: the long line is
not hard-sliced because `current_chunk` is non-empty when it is met. -/
def longLineMsg : String := ⟨'a' :: '\n' :: List.replicate 4097 'b'⟩

/-- A message whose first chunk boundary strips a trailing space. -/
def lossyMsg : String := ⟨'a' :: ' ' :: '\n' :: List.replicate 4097 'b'⟩

theorem splitOnChar_not_mem {sep : Char} {l : List Char} (h : sep ∉ l) :
    splitOnChar sep l = [l] := by
  induction l with
  | nil => rfl
  | cons c t ih =>
    have hc : ¬ (c == sep) = true := by
      simp only [beq_iff_eq]
      intro hh; exact h (hh ▸ List.mem_cons_self c t)
    have ht : sep ∉ t := fun hm => h (List.mem_cons_of_mem _ hm)
    simp only [splitOnChar, if_neg hc, ih ht]

theorem splitOnChar_append {sep : Char} {l rest : List Char} (h : sep ∉ l) :
    splitOnChar sep (l ++ sep :: rest) = l :: splitOnChar sep rest := by
  induction l with
  | nil =>
    simp only [List.nil_append, splitOnChar, beq_self_eq_true, if_pos]
  | cons c t ih =>
    have hc : ¬ (c == sep) = true := by
      simp only [beq_iff_eq]
      intro hh; exact h (hh ▸ List.mem_cons_self c t)
    have ht : sep ∉ t := fun hm => h (List.mem_cons_of_mem _ hm)
    have := ih ht
    simp only [List.cons_append, splitOnChar, if_neg hc, List.append_eq, this]

theorem dropWhile_eq_self_of {p : Char → Bool} {l : List Char}
    (h : ∀ c ∈ l, p c = false) : l.dropWhile p = l := by
  cases l with
  | nil => rfl
  | cons a t => simp [List.dropWhile_cons, h a (List.mem_cons_self a t)]

theorem pyStrip_nospace_newline {l : List Char}
    (h : ∀ c ∈ l, isPySpace c = false) (hl : l ≠ []) :
    pyStrip (l ++ ['\n']) = l := by
  unfold pyStrip
  have h1 : (l ++ ['\n']).dropWhile isPySpace = l ++ ['\n'] := by
    cases l with
    | nil => exact absurd rfl hl
    | cons a t =>
      simp [List.cons_append, List.dropWhile_cons, h a (List.mem_cons_self a t)]
  rw [h1, List.reverse_append]
  have h2 : (['\n'].reverse ++ l.reverse).dropWhile isPySpace =
      l.reverse.dropWhile isPySpace := by
    simp [List.dropWhile_cons, isPySpace]
  rw [h2, dropWhile_eq_self_of, List.reverse_reverse]
  intro c hc
  exact h c (List.mem_reverse.mp hc)

theorem no_newline_in_b (n : Nat) : ('\n' : Char) ∉ List.replicate n 'b' := by
  intro h
  have := List.eq_of_mem_replicate h
  simp at this

theorem b_not_space : ∀ c ∈ List.replicate 4097 'b', isPySpace c = false := by
  intro c hc
  rw [List.eq_of_mem_replicate hc]
  decide

theorem splitLoop_nil (chunks : List (List Char)) (current : List Char) :
    splitLoop [] chunks current = (chunks, current) := rfl

theorem splitLoop_cons_acc (line : List Char) (lines : List (List Char))
    (chunks : List (List Char)) (current : List Char)
    (h : ¬ max_message_length < current.length + line.length + 1) :
    splitLoop (line :: lines) chunks current =
      splitLoop lines chunks (current ++ line ++ ['\n']) := by
  simp only [splitLoop]
  rw [if_neg h]

theorem splitLoop_cons_flush (line : List Char) (lines : List (List Char))
    (chunks : List (List Char)) (current : List Char)
    (h : max_message_length < current.length + line.length + 1)
    (hne : ¬ current = []) :
    splitLoop (line :: lines) chunks current =
      splitLoop lines (chunks ++ [pyStrip current]) (line ++ ['\n']) := by
  simp only [splitLoop]
  rw [if_pos h, if_neg hne]

theorem bs_ne_nil : List.replicate 4097 'b' ≠ [] := by
  intro h
  have h2 := congrArg List.length h
  rw [List.length_replicate, List.length_nil] at h2
  exact absurd h2 (by decide)

/-- Evaluation of the splitter on `"a\n" ++ "b" * 4097`. -/
theorem split_message_longLineMsg_eq :
    split_message longLineMsg = [⟨['a']⟩, ⟨List.replicate 4097 'b'⟩] := by
  have hdata : longLineMsg.data = 'a' :: '\n' :: List.replicate 4097 'b' := rfl
  have hlen : longLineMsg.length = 4099 := by
    show longLineMsg.data.length = 4099
    rw [hdata, List.length_cons, List.length_cons, List.length_replicate]
  have hgt : ¬ (longLineMsg.length ≤ max_message_length) := by
    rw [hlen]; decide
  unfold split_message
  rw [if_neg hgt, hdata]
  have hlines : splitOnChar '\n' ('a' :: '\n' :: List.replicate 4097 'b') =
      [['a'], List.replicate 4097 'b'] := by
    show splitOnChar '\n' (['a'] ++ '\n' :: List.replicate 4097 'b') = _
    rw [splitOnChar_append (by decide), splitOnChar_not_mem (no_newline_in_b _)]
  rw [hlines]
  rw [splitLoop_cons_acc _ _ _ _ (by decide)]
  rw [splitLoop_cons_flush _ _ _ _
      (by rw [List.length_append, List.length_replicate]; decide)
      (by decide)]
  rw [splitLoop_nil]
  have hstrip1 : pyStrip ([] ++ ['a'] ++ ['\n']) = ['a'] := by decide
  rw [hstrip1]
  have hstrip2 : pyStrip (List.replicate 4097 'b' ++ ['\n']) =
      List.replicate 4097 'b' :=
    pyStrip_nospace_newline b_not_space bs_ne_nil
  simp only [hstrip2]
  rw [if_neg bs_ne_nil]
  rfl

/-- Evaluation of the splitter on `"a \n" ++ "b" * 4097`. -/
theorem split_message_lossyMsg_eq :
    split_message lossyMsg = [⟨['a']⟩, ⟨List.replicate 4097 'b'⟩] := by
  have hdata : lossyMsg.data = 'a' :: ' ' :: '\n' :: List.replicate 4097 'b' := rfl
  have hlen : lossyMsg.length = 4100 := by
    show lossyMsg.data.length = 4100
    rw [hdata, List.length_cons, List.length_cons, List.length_cons,
      List.length_replicate]
  have hgt : ¬ (lossyMsg.length ≤ max_message_length) := by
    rw [hlen]; decide
  unfold split_message
  rw [if_neg hgt, hdata]
  have hlines : splitOnChar '\n' ('a' :: ' ' :: '\n' :: List.replicate 4097 'b') =
      [['a', ' '], List.replicate 4097 'b'] := by
    show splitOnChar '\n' (['a', ' '] ++ '\n' :: List.replicate 4097 'b') = _
    rw [splitOnChar_append (by decide), splitOnChar_not_mem (no_newline_in_b _)]
  rw [hlines]
  rw [splitLoop_cons_acc _ _ _ _ (by decide)]
  rw [splitLoop_cons_flush _ _ _ _
      (by rw [List.length_append, List.length_replicate]; decide)
      (by decide)]
  rw [splitLoop_nil]
  have hstrip1 : pyStrip ([] ++ ['a', ' '] ++ ['\n']) = ['a'] := by decide
  rw [hstrip1]
  have hstrip2 : pyStrip (List.replicate 4097 'b' ++ ['\n']) =
      List.replicate 4097 'b' :=
    pyStrip_nospace_newline b_not_space bs_ne_nil
  simp only [hstrip2]
  rw [if_neg bs_ne_nil]
  rfl

/-- C2: evaluation of the splitter at the failing input
`"a\n" ++ "b" * 4097`: the returned chunks have lengths `[1, 4097]`, so the
second chunk exceeds the 4096 limit.  A line longer than the limit is
hard-sliced only when `current_chunk` is empty when the line is reached;
here the preceding accumulated line suppresses the slicing and the over-long
line is emitted whole, so the claimed bound fails on the code. -/
theorem C2_long_line_chunk_exceeds_limit :
    (split_message longLineMsg).map String.length = [1, 4097] ∧
    ∃ c ∈ split_message longLineMsg, max_message_length < c.length := by
  rw [split_message_longLineMsg_eq]
  constructor
  · have h1 : (⟨['a']⟩ : String).length = 1 := rfl
    have h2 : (⟨List.replicate 4097 'b'⟩ : String).length = 4097 := by
      show (List.replicate 4097 'b').length = 4097
      rw [List.length_replicate]
    simp only [List.map_cons, List.map_nil, h1, h2]
  · refine ⟨⟨List.replicate 4097 'b'⟩, by simp, ?_⟩
    have h2 : (⟨List.replicate 4097 'b'⟩ : String).length = 4097 := by
      show (List.replicate 4097 'b').length = 4097
      rw [List.length_replicate]
    rw [h2]
    decide

/-- C3, counterexample: chunk boundaries strip whitespace, so rejoining the
chunks of `"a \n" ++ "b" * 4097` with the separating newlines reinserted
yields `"a\n" ++ "b" * 4097`, not the original message: the round-trip is
not lossless. -/
theorem C3_roundtrip_counterexample :
    joinWithNewlines (split_message lossyMsg) ≠ lossyMsg := by
  rw [split_message_lossyMsg_eq]
  have hjoin : joinWithNewlines [⟨['a']⟩, ⟨List.replicate 4097 'b'⟩] =
      (⟨'a' :: '\n' :: List.replicate 4097 'b'⟩ : String) := by
    simp only [joinWithNewlines]
    apply String.ext
    rw [String.data_append, String.data_append]
    rfl
  rw [hjoin]
  intro h
  have h2 := congrArg String.data h
  have hdata : lossyMsg.data = 'a' :: ' ' :: '\n' :: List.replicate 4097 'b' := rfl
  rw [hdata] at h2
  injection h2 with e1 e2
  injection e2 with e3 e4
  exact absurd e3 (by decide)

/-- C3, amended: the round-trip holds exactly on the early-return path: for
every message of length at most the 4096 limit the splitter returns the
single, unmodified chunk `[message]` (trivially lossless); for longer
messages the `.strip()` at each chunk boundary (and the newline reinserted
at a hard-slice boundary) makes the reassembly inexact in general. -/
theorem C3_roundtrip_within_limit :
    ∀ message : String, message.length ≤ max_message_length →
      split_message message = [message] := by
  intro m h
  unfold split_message
  rw [if_pos h]

/-- C3, witness for the amended theorem. -/
theorem C3_roundtrip_within_limit_witness :
    split_message "hello" = ["hello"] :=
  C3_roundtrip_within_limit "hello" (by decide)

/-! ## Public-mode product lookup (src/aliexpress_api.py:133-153, 183-205)

The source (docstrings elided):
`get_product_by_id` searches with the product id as the keyword
(`page_size=20`); returns `None` when the result or its `products` entry is
falsy; otherwise returns the product whose stringified `product_id` equals
the stringified argument, else `products[0]`.
`get_product_details` first calls `get_product_by_id`; on a falsy result it
computes `search_term = product_id[-8:] if len(product_id) > 8 else
product_id`, searches again with `page_size=5`, and returns the first
result of that page, or `None` when that search is also falsy.

The remote keyword search is modelled as an oracle
`search : String → Nat → Option (List AEProduct)` from (keywords,
page_size) to the product list of the response; `none` covers a failed
request or a result without a `products` entry, `some []` an empty page
(both are falsy in the source).  A product is modelled by its (already
stringified) identifier. -/

structure AEProduct where
  product_id : String
deriving DecidableEq

/-- Python `product_id[-8:]` (last 8 code points). -/
def lastEight (s : String) : String := ⟨s.data.drop (s.data.length - 8)⟩

def get_product_by_id (search : String → Nat → Option (List AEProduct))
    (product_id : String) : Option AEProduct :=
  match search product_id 20 with
  | none => none
  | some products =>
    if products.isEmpty then none
    else
      match products.find? (fun p => p.product_id == product_id) with
      | some p => some p
      | none => products.head?

/-- The local `search_term` variable of the source is inlined at its single
use site. -/
def get_product_details (search : String → Nat → Option (List AEProduct))
    (product_id : String) : Option AEProduct :=
  match get_product_by_id search product_id with
  | some p => some p
  | none =>
    match search (if product_id.length > 8 then lastEight product_id
        else product_id) 5 with
    | none => none
    | some products => if products.isEmpty then none else products.head?

theorem get_product_by_id_of_failed {search : String → Nat → Option (List AEProduct)}
    {pid : String} (h : search pid 20 = none) :
    get_product_by_id search pid = none := by
  unfold get_product_by_id
  rw [h]

theorem get_product_by_id_of_empty {search : String → Nat → Option (List AEProduct)}
    {pid : String} (h : search pid 20 = some []) :
    get_product_by_id search pid = none := by
  unfold get_product_by_id
  rw [h]
  rfl

theorem get_product_by_id_of_page {search : String → Nat → Option (List AEProduct)}
    {pid : String} {ps : List AEProduct} (h : search pid 20 = some ps)
    (hne : ps ≠ []) :
    get_product_by_id search pid =
      (ps.find? (fun p => p.product_id == pid)).orElse (fun _ => ps.head?) := by
  obtain ⟨a, t, rfl⟩ := List.exists_cons_of_ne_nil hne
  unfold get_product_by_id
  rw [h]
  show (match (a :: t).find? (fun p => p.product_id == pid) with
        | some p => some p
        | none => (a :: t).head?) =
      ((a :: t).find? (fun p => p.product_id == pid)).orElse
        (fun _ => (a :: t).head?)
  cases hf : (a :: t).find? (fun p => p.product_id == pid) with
  | some p => rfl
  | none => rfl

theorem get_product_by_id_page_isSome
    {search : String → Nat → Option (List AEProduct)}
    {pid : String} {ps : List AEProduct} (h : search pid 20 = some ps)
    (hne : ps ≠ []) : get_product_by_id search pid ≠ none := by
  rw [get_product_by_id_of_page h hne]
  obtain ⟨a, t, rfl⟩ := List.exists_cons_of_ne_nil hne
  cases hf : (a :: t).find? (fun p => p.product_id == pid) with
  | some p => exact fun hc => Option.noConfusion hc
  | none => exact fun hc => Option.noConfusion hc

theorem get_product_details_of_hit {search : String → Nat → Option (List AEProduct)}
    {pid : String} {p : AEProduct} (h : get_product_by_id search pid = some p) :
    get_product_details search pid = some p := by
  unfold get_product_details
  rw [h]

theorem get_product_details_of_miss {search : String → Nat → Option (List AEProduct)}
    {pid : String} (h : get_product_by_id search pid = none) :
    get_product_details search pid =
      (search (if pid.length > 8 then lastEight pid else pid) 5).bind
        List.head? := by
  unfold get_product_details
  rw [h]
  cases h2 : search (if pid.length > 8 then lastEight pid else pid) 5 with
  | none => rfl
  | some qs =>
    cases qs with
    | nil => rfl
    | cons a t => rfl

/-- C7: full behaviour of the public-mode lookup: (a) when the first search
(keyword = the full identifier, page size 20) yields a non-empty candidate
list, the result is the exact-identifier match if one exists, else the
first candidate of the page; (b) when the first search yields nothing
(failed request or empty page), the lookup retries once with the last 8
characters of the identifier (the full identifier when it has at most 8)
at page size 5 and returns the first result of that page; (c) the lookup
returns `none` exactly when both searches yield nothing (a failed request
or an empty page each time). -/
theorem C7_lookup_behaviour (search : String → Nat → Option (List AEProduct))
    (pid : String) :
    (∀ ps, search pid 20 = some ps → ps ≠ [] →
      get_product_details search pid =
        (ps.find? (fun p => p.product_id == pid)).orElse (fun _ => ps.head?))
    ∧ ((search pid 20 = none ∨ search pid 20 = some []) →
      get_product_details search pid =
        (search (if pid.length > 8 then lastEight pid else pid) 5).bind
          List.head?)
    ∧ (get_product_details search pid = none ↔
        ((search pid 20 = none ∨ search pid 20 = some []) ∧
         (search (if pid.length > 8 then lastEight pid else pid) 5 = none ∨
          search (if pid.length > 8 then lastEight pid else pid) 5 = some []))) := by
  refine ⟨?_, ?_, ?_⟩
  · intro ps hps hne
    have hpage := get_product_by_id_of_page hps hne
    cases hgp : get_product_by_id search pid with
    | none => exact absurd hgp (get_product_by_id_page_isSome hps hne)
    | some p =>
      rw [get_product_details_of_hit hgp, ← hpage, hgp]
  · intro hfirst
    have hnone : get_product_by_id search pid = none := by
      rcases hfirst with h | h
      · exact get_product_by_id_of_failed h
      · exact get_product_by_id_of_empty h
    exact get_product_details_of_miss hnone
  · constructor
    · intro hmiss
      cases h1 : search pid 20 with
      | none =>
        have hd := get_product_details_of_miss (get_product_by_id_of_failed h1)
        rw [hd] at hmiss
        refine ⟨Or.inl rfl, ?_⟩
        cases h2 : search (if pid.length > 8 then lastEight pid else pid) 5 with
        | none => exact Or.inl rfl
        | some qs =>
          rw [h2] at hmiss
          cases qs with
          | nil => exact Or.inr rfl
          | cons a t => simp at hmiss
      | some ps =>
        cases ps with
        | nil =>
          have hd := get_product_details_of_miss (get_product_by_id_of_empty h1)
          rw [hd] at hmiss
          refine ⟨Or.inr rfl, ?_⟩
          cases h2 : search (if pid.length > 8 then lastEight pid else pid) 5 with
          | none => exact Or.inl rfl
          | some qs =>
            rw [h2] at hmiss
            cases qs with
            | nil => exact Or.inr rfl
            | cons a t => simp at hmiss
        | cons a t =>
          exfalso
          cases hgp : get_product_by_id search pid with
          | none => exact absurd hgp (get_product_by_id_page_isSome h1 (by simp))
          | some p =>
            rw [get_product_details_of_hit hgp] at hmiss
            simp at hmiss
    · rintro ⟨hfirst, hsecond⟩
      have hnone : get_product_by_id search pid = none := by
        rcases hfirst with h | h
        · exact get_product_by_id_of_failed h
        · exact get_product_by_id_of_empty h
      rw [get_product_details_of_miss hnone]
      rcases hsecond with h | h <;> rw [h] <;> rfl

/-- A concrete oracle for the C7 witness: the full-identifier search
returns a two-element page whose second element is the exact match. -/
def demoSearch : String → Nat → Option (List AEProduct) :=
  fun k n =>
    if k == "22233344455" && n == 20 then some [⟨"111"⟩, ⟨"22233344455"⟩]
    else none

/-- C7, witness: on the concrete oracle the lookup returns the exact match
from the first search's page. -/
theorem C7_lookup_behaviour_witness :
    get_product_details demoSearch "22233344455" = some ⟨"22233344455"⟩ := by
  have h := (C7_lookup_behaviour demoSearch "22233344455").1
    [⟨"111"⟩, ⟨"22233344455"⟩] (by decide) (by decide)
  rw [h]
  decide

/-! ## Request signing (src/aliexpress_api.py:42-56)

```python
def _generate_signature(self, params):
    sorted_params = sorted(params.items())
    param_string = ''.join([f"{k}{v}" for k, v in sorted_params])
    sign_string = f"{self.app_secret}{param_string}{self.app_secret}"
    signature = hashlib.md5(sign_string.encode('utf-8')).hexdigest().upper()
    return signature
```
`hashlib.md5(...).hexdigest()` is modelled by a full MD5 (RFC 1321)
implementation over byte lists, evaluated on the UTF-8 encoding of the sign
string; `.upper()` by a code-point-wise upper-casing.  The parameter
mapping is modelled as a list of key/value pairs whose values are already
stringified (Python renders them with `f"{k}{v}"`); `sorted` on the pairs
uses Python's tuple order, i.e. the lexicographic order on
(key, value) — keys of a `dict` are distinct, so this coincides with
sorting by key.  `sorted` is stable; under a total order any sorting
algorithm returns the same list, so an insertion sort models it. -/

def md5Mask : Nat := 4294967296

def rotl32 (x n : Nat) : Nat :=
  ((x <<< n) % md5Mask) ||| (x >>> (32 - n))

/-- The 64 constants `floor(2^32 * abs(sin(i+1)))` of RFC 1321. -/
def md5K : List Nat := [0xd76aa478, 0xe8c7b756, 0x242070db, 0xc1bdceee,
  0xf57c0faf, 0x4787c62a, 0xa8304613, 0xfd469501,
  0x698098d8, 0x8b44f7af, 0xffff5bb1, 0x895cd7be,
  0x6b901122, 0xfd987193, 0xa679438e, 0x49b40821,
  0xf61e2562, 0xc040b340, 0x265e5a51, 0xe9b6c7aa,
  0xd62f105d, 0x02441453, 0xd8a1e681, 0xe7d3fbc8,
  0x21e1cde6, 0xc33707d6, 0xf4d50d87, 0x455a14ed,
  0xa9e3e905, 0xfcefa3f8, 0x676f02d9, 0x8d2a4c8a,
  0xfffa3942, 0x8771f681, 0x6d9d6122, 0xfde5380c,
  0xa4beea44, 0x4bdecfa9, 0xf6bb4b60, 0xbebfbc70,
  0x289b7ec6, 0xeaa127fa, 0xd4ef3085, 0x04881d05,
  0xd9d4d039, 0xe6db99e5, 0x1fa27cf8, 0xc4ac5665,
  0xf4292244, 0x432aff97, 0xab9423a7, 0xfc93a039,
  0x655b59c3, 0x8f0ccc92, 0xffeff47d, 0x85845dd1,
  0x6fa87e4f, 0xfe2ce6e0, 0xa3014314, 0x4e0811a1,
  0xf7537e82, 0xbd3af235, 0x2ad7d2bb, 0xeb86d391]

/-- The per-round left-rotation amounts of RFC 1321. -/
def md5S : List Nat := [7, 12, 17, 22, 7, 12, 17, 22, 7, 12, 17, 22, 7, 12, 17, 22,
  5, 9, 14, 20, 5, 9, 14, 20, 5, 9, 14, 20, 5, 9, 14, 20,
  4, 11, 16, 23, 4, 11, 16, 23, 4, 11, 16, 23, 4, 11, 16, 23,
  6, 10, 15, 21, 6, 10, 15, 21, 6, 10, 15, 21, 6, 10, 15, 21]

def md5Step (M : List Nat) (st : Nat × Nat × Nat × Nat) (i : Nat) :
    Nat × Nat × Nat × Nat :=
  let (a, b, c, d) := st
  let f :=
    if i < 16 then (b &&& c) ||| ((b ^^^ 0xffffffff) &&& d)
    else if i < 32 then (d &&& b) ||| ((d ^^^ 0xffffffff) &&& c)
    else if i < 48 then b ^^^ c ^^^ d
    else c ^^^ (b ||| (d ^^^ 0xffffffff))
  let g :=
    if i < 16 then i
    else if i < 32 then (5 * i + 1) % 16
    else if i < 48 then (3 * i + 5) % 16
    else (7 * i) % 16
  let tmp := (f + a + md5K.getD i 0 + M.getD g 0) % md5Mask
  (d, (b + rotl32 tmp (md5S.getD i 0)) % md5Mask, b, c)

/-- Little-endian packing of a block's bytes into 32-bit words. -/
def toWords : List Nat → List Nat
  | b0 :: b1 :: b2 :: b3 :: rest =>
      (b0 + (b1 <<< 8) + (b2 <<< 16) + (b3 <<< 24)) :: toWords rest
  | _ => []

def md5ProcessBlock (st : Nat × Nat × Nat × Nat) (block : List Nat) :
    Nat × Nat × Nat × Nat :=
  let M := toWords block
  let r := (List.range 64).foldl (md5Step M) st
  ((st.1 + r.1) % md5Mask, (st.2.1 + r.2.1) % md5Mask,
   (st.2.2.1 + r.2.2.1) % md5Mask, (st.2.2.2 + r.2.2.2) % md5Mask)

def chunk64Go : Nat → List Nat → List (List Nat)
  | 0, _ => []
  | _, [] => []
  | fuel + 1, l => l.take 64 :: chunk64Go fuel (l.drop 64)

/-- Partition the padded message into 64-byte blocks.  The fuel argument
(one unit per block; `l.length` always suffices) keeps the recursion
structural so the definition evaluates inside the kernel. -/
def chunk64 (l : List Nat) : List (List Nat) := chunk64Go l.length l

def le8 (n : Nat) : List Nat :=
  [n % 256, n / 256 % 256, n / 65536 % 256, n / 16777216 % 256,
   n / 4294967296 % 256, n / 1099511627776 % 256,
   n / 281474976710656 % 256, n / 72057594037927936 % 256]

def le4 (n : Nat) : List Nat :=
  [n % 256, n / 256 % 256, n / 65536 % 256, n / 16777216 % 256]

/-- RFC 1321 padding: a `0x80` byte, zeros to 56 mod 64, then the bit
length as a 64-bit little-endian quantity. -/
def md5Pad (msg : List Nat) : List Nat :=
  let len := msg.length
  let zeros := (120 - (len + 1) % 64) % 64
  msg ++ [0x80] ++ List.replicate zeros 0 ++
    le8 ((len * 8) % 18446744073709551616)

def md5Bytes (msg : List Nat) : List Nat :=
  let r := (chunk64 (md5Pad msg)).foldl md5ProcessBlock
    (0x67452301, 0xefcdab89, 0x98badcfe, 0x10325476)
  le4 r.1 ++ le4 r.2.1 ++ le4 r.2.2.1 ++ le4 r.2.2.2

def hexChars : List Char := "0123456789abcdef".data

def byteToHex (b : Nat) : List Char :=
  [hexChars.getD (b / 16) '0', hexChars.getD (b % 16) '0']

/-- `hashlib.md5(bytes).hexdigest()`: lowercase hex of the 16 digest bytes. -/
def md5HexDigest (msg : List Nat) : String := ⟨((md5Bytes msg).map byteToHex).flatten⟩

/-- UTF-8 encoding of one code point (`str.encode('utf-8')` per character). -/
def utf8Bytes (c : Char) : List Nat :=
  let n := c.toNat
  if n < 128 then [n]
  else if n < 2048 then [192 + n / 64, 128 + n % 64]
  else if n < 65536 then [224 + n / 4096, 128 + (n / 64) % 64, 128 + n % 64]
  else [240 + n / 262144, 128 + (n / 4096) % 64, 128 + (n / 64) % 64, 128 + n % 64]

def strUtf8 (s : String) : List Nat := (s.data.map utf8Bytes).flatten

/-- `''.join(f"{k}{v}" for k, v in pairs)`. -/
def paramJoin (params : List (String × String)) : String :=
  String.join (params.map fun kv => kv.1 ++ kv.2)

/-- Python's tuple comparison on `(key, value)` pairs: lexicographic, with
strings compared code point by code point (Lean's `String` order). -/
def pairLe (a b : String × String) : Prop := toLex a ≤ toLex b

instance : DecidableRel pairLe := fun a b =>
  inferInstanceAs (Decidable (toLex a ≤ toLex b))

instance : IsTotal (String × String) pairLe :=
  ⟨fun a b => le_total (toLex a) (toLex b)⟩

instance : IsTrans (String × String) pairLe :=
  ⟨fun _ _ _ h1 h2 => le_trans h1 h2⟩

instance : IsAntisymm (String × String) pairLe :=
  ⟨fun _ _ h1 h2 => toLex.injective (le_antisymm h1 h2)⟩

/-- Python `str.upper()`, code point by code point. -/
def pyUpper (s : String) : String := ⟨s.data.map Char.toUpper⟩

def generate_signature (app_secret : String) (params : List (String × String)) : String :=
  let sorted_params := List.insertionSort pairLe params
  let param_string := paramJoin sorted_params
  let sign_string := app_secret ++ param_string ++ app_secret
  pyUpper (md5HexDigest (strUtf8 sign_string))

/-- C1: for every parameter mapping — represented by its key-ascending
entry list `params` (strictly sorted keys, as the keys of a Python dict
are distinct) and presented to the generator in any order `params'` — the
generator returns the uppercase hexadecimal MD5 digest of the UTF-8 bytes
of `secret ++ k₁v₁k₂v₂… ++ secret`, the entries sorted by key ascending
and concatenated with no separator, the whole wrapped in the secret. -/
theorem C1_signature_canonical :
    ∀ (secret : String) (params params' : List (String × String)),
      params.Pairwise (fun a b => a.1 < b.1) →
      params'.Perm params →
      generate_signature secret params' =
        pyUpper (md5HexDigest (strUtf8 (secret ++ paramJoin params ++ secret))) := by
  intro secret params params' hsorted hperm
  have hs : List.Sorted pairLe params :=
    hsorted.imp (fun h => (Prod.Lex.le_iff _ _).mpr (Or.inl h))
  have h1 : List.Sorted pairLe (List.insertionSort pairLe params') :=
    List.sorted_insertionSort pairLe params'
  have h2 : (List.insertionSort pairLe params').Perm params :=
    (List.perm_insertionSort pairLe params').trans hperm
  have h3 : List.insertionSort pairLe params' = params :=
    List.eq_of_perm_of_sorted h2 h1 hs
  unfold generate_signature
  rw [h3]

/-- C1, witness: the generator applied to the entries of
`{"b": "2", "a": "1"}` (in reversed order) with secret `"abc"` yields the
digest of `"abca1b2abc"`, namely `E77954332C159B0DEBE418AA512025D0` — the
same value `hashlib.md5` produces. -/
theorem C1_signature_canonical_witness :
    generate_signature "abc" [("b", "2"), ("a", "1")] =
      "E77954332C159B0DEBE418AA512025D0" := by
  have hab : ("a" : String) < "b" := by
    rw [String.lt_iff_toList_lt]; decide
  have hpw : List.Pairwise (fun a b : String × String => a.1 < b.1)
      [("a", "1"), ("b", "2")] := by
    refine List.Pairwise.cons ?_ (List.pairwise_singleton _ _)
    intro y hy
    rw [List.mem_singleton] at hy
    rw [hy]
    exact hab
  have h := C1_signature_canonical "abc" [("a", "1"), ("b", "2")]
    [("b", "2"), ("a", "1")] hpw (List.Perm.swap _ _ _)
  rw [h]
  decide

/-! ## `link_parser` (src/link_parser.py)

`is_aliexpress_url` (lines 41-54) parses the input with `urlparse`,
lowercases the netloc, strips a leading `www.` and compares against the
fixed allow-list.  `urlparse` is modelled by `splitScheme`/`netlocOf`: an
optional `scheme:` (leading letter, then letters/digits/`+-.`) is removed,
and a netloc is present exactly when the remainder starts with `//`,
extending to the next `/`, `?` or `#`.

`parse_url` (lines 56-144) tries the regex patterns in order (`desktop`,
`desktop_alt`, `mobile`, `store`, `short` — the `app` pattern of the
pattern table is never consulted by `parse_url`), then reads SKU and
tracking parameters from the query string.  Each pattern is embedded as a
deterministic matcher for its mandatory core (the optional
`(?:https?://)?(?:www\.)?` prefixes affect neither which occurrence
matches first nor the captured groups, so `re.search` is modelled by
`regexSearch`, which tries every start position left to right), with the
greedy character classes realised by `takeWhile` — for these patterns
greedy matching never needs to backtrack, because each class is followed
by a character it cannot contain.  `\d` and `[a-zA-Z0-9]` are read as
ASCII (the identifiers in scope are ASCII digits).  `parse_qs` is modelled
without percent/plus decoding (no claim in scope involves encoded
values); as in CPython it splits on `&`, keeps only pairs with an `=` and
a non-empty value, and `[0]` takes the first occurrence.
`mobile` reuses `matchItemIdAt`: its regex differs from `desktop_alt`
only in the optional prefix `(?:m\.)?` versus `(?:www\.)?`, which is not
part of the mandatory core. -/

def schemeChar (c : Char) : Bool :=
  c.isAlpha || c.isDigit || c == '+' || c == '-' || c == '.'

def splitScheme (url : List Char) : List Char :=
  match url with
  | [] => []
  | c :: _ =>
    if c.isAlpha then
      match url.dropWhile schemeChar with
      | ':' :: rest => rest
      | _ => url
    else url

def urlDelim (c : Char) : Bool := c == '/' || c == '?' || c == '#'

def netlocOf (url : List Char) : List Char :=
  let rest := splitScheme url
  if ['/', '/'].isPrefixOf rest then
    (rest.drop 2).takeWhile (fun c => !urlDelim c)
  else []

def is_aliexpress_url (url : String) : Bool :=
  let domain := (netlocOf url.data).map Char.toLower
  let domain := if ['w', 'w', 'w', '.'].isPrefixOf domain then domain.drop 4 else domain
  domain == "aliexpress.com".data || domain == "m.aliexpress.com".data ||
    domain == "a.aliexpress.com".data

def startsWithStr (s pre : String) : Bool := pre.data.isPrefixOf s.data

def regexSearch (pat : List Char → Option α) : List Char → Option α
  | [] => pat []
  | s@(_ :: rest) => (pat s).orElse fun _ => regexSearch pat rest

def coreItem : List Char := "aliexpress.com/item/".data
def coreStore : List Char := "aliexpress.com/store/product/".data
def coreShort : List Char := "a.aliexpress.com/_".data

def notSlash (c : Char) : Bool := c != '/'

def matchDesktopAt (s : List Char) : Option (List Char × List Char) :=
  if coreItem.isPrefixOf s then
    let rest := s.drop coreItem.length
    let seg := rest.takeWhile notSlash
    if seg.isEmpty then none
    else
      match rest.dropWhile notSlash with
      | '/' :: rest2 =>
        let digits := rest2.takeWhile Char.isDigit
        if digits.isEmpty then none
        else if ".html".data.isPrefixOf (rest2.dropWhile Char.isDigit) then
          some (seg, digits)
        else none
      | _ => none
  else none

def matchItemIdAt (s : List Char) : Option (List Char) :=
  if coreItem.isPrefixOf s then
    let rest := s.drop coreItem.length
    let digits := rest.takeWhile Char.isDigit
    if digits.isEmpty then none
    else if ".html".data.isPrefixOf (rest.dropWhile Char.isDigit) then some digits
    else none
  else none

def matchStoreAt (s : List Char) : Option (List Char × List Char) :=
  if coreStore.isPrefixOf s then
    let rest := s.drop coreStore.length
    let seg := rest.takeWhile notSlash
    if seg.isEmpty then none
    else
      match rest.dropWhile notSlash with
      | '/' :: rest2 =>
        let d1 := rest2.takeWhile Char.isDigit
        if d1.isEmpty then none
        else
          match rest2.dropWhile Char.isDigit with
          | '_' :: rest3 =>
            let d2 := rest3.takeWhile Char.isDigit
            if d2.isEmpty then none
            else if ".html".data.isPrefixOf (rest3.dropWhile Char.isDigit) then
              some (d1, d2)
            else none
          | _ => none
      | _ => none
  else none

def alnumChar (c : Char) : Bool := c.isAlpha || c.isDigit

def matchShortAt (s : List Char) : Option (List Char) :=
  if coreShort.isPrefixOf s then
    let code := (s.drop coreShort.length).takeWhile alnumChar
    if code.isEmpty then none else some code
  else none

def queryOf (url : List Char) : List Char :=
  let beforeFrag := url.takeWhile (fun c => c != '#')
  match beforeFrag.dropWhile (fun c => c != '?') with
  | '?' :: q => q
  | _ => []

def parse_qs_first (query : List Char) (key : List Char) : Option (List Char) :=
  ((splitOnChar '&' query).filterMap fun pr =>
      match pr.dropWhile (fun c => c != '=') with
      | '=' :: v =>
        if pr.takeWhile (fun c => c != '=') == key && v != [] then some v else none
      | _ => none).head?

def firstSku (q : List Char) : Option (List Char) :=
  match parse_qs_first q "sku".data with
  | some v => some v
  | none =>
    match parse_qs_first q "skuId".data with
    | some v => some v
    | none =>
      match parse_qs_first q "sku_id".data with
      | some v => some v
      | none => parse_qs_first q "variation".data

structure ProductInfo where
  product_id : Option String
  product_name_slug : Option String
  store_id : Option String
  short_code : Option String
  needs_expansion : Bool
  sku_id : Option String
  spm : Option String
  scm : Option String
deriving DecidableEq

def emptyInfo : ProductInfo := ⟨none, none, none, none, false, none, none, none⟩

def attachQueryParams (info : ProductInfo) (q : List Char) : ProductInfo :=
  let info := match firstSku q with
    | some v => { info with sku_id := some ⟨v⟩ }
    | none => info
  let info := match parse_qs_first q "spm".data with
    | some v => { info with spm := some ⟨v⟩ }
    | none => info
  match parse_qs_first q "scm".data with
  | some v => { info with scm := some ⟨v⟩ }
  | none => info

def parse_url (url : String) : Option ProductInfo :=
  if !is_aliexpress_url url then none
  else
    let url := if !(startsWithStr url "http://" || startsWithStr url "https://") then
        "https://" ++ url
      else url
    let s := url.data
    let info? : Option ProductInfo :=
      ((regexSearch matchDesktopAt s).map fun r =>
        { emptyInfo with product_id := some ⟨r.2⟩, product_name_slug := some ⟨r.1⟩ })
      |>.orElse (fun _ => (regexSearch matchItemIdAt s).map fun pid =>
        { emptyInfo with product_id := some ⟨pid⟩ })
      |>.orElse (fun _ => (regexSearch matchItemIdAt s).map fun pid =>
        { emptyInfo with product_id := some ⟨pid⟩ })
      |>.orElse (fun _ => (regexSearch matchStoreAt s).map fun r =>
        { emptyInfo with product_id := some ⟨r.2⟩, store_id := some ⟨r.1⟩ })
      |>.orElse (fun _ => (regexSearch matchShortAt s).map fun code =>
        { emptyInfo with short_code := some ⟨code⟩, needs_expansion := true })
    match info? with
    | none => none
    | some info => some (attachQueryParams info (queryOf s))


-- generic helpers
theorem takeWhile_append_stop {p : Char → Bool} {l : List Char}
    (hl : ∀ x ∈ l, p x = true) {c : Char} (hc : p c = false) (r : List Char) :
    (l ++ c :: r).takeWhile p = l := by
  induction l with
  | nil => simp [List.takeWhile_cons, hc]
  | cons a t ih =>
    rw [List.cons_append, List.takeWhile_cons, hl a (List.mem_cons_self a t),
      if_pos rfl, ih (fun x hx => hl x (List.mem_cons_of_mem _ hx))]

theorem dropWhile_append_stop {p : Char → Bool} {l : List Char}
    (hl : ∀ x ∈ l, p x = true) {c : Char} (hc : p c = false) (r : List Char) :
    (l ++ c :: r).dropWhile p = c :: r := by
  induction l with
  | nil => simp [List.dropWhile_cons, hc]
  | cons a t ih =>
    rw [List.cons_append, List.dropWhile_cons, hl a (List.mem_cons_self a t),
      if_pos rfl]
    exact ih (fun x hx => hl x (List.mem_cons_of_mem _ hx))

theorem takeWhile_all {p : Char → Bool} {l : List Char}
    (hl : ∀ x ∈ l, p x = true) : l.takeWhile p = l := by
  induction l with
  | nil => rfl
  | cons a t ih =>
    rw [List.takeWhile_cons, hl a (List.mem_cons_self a t), if_pos rfl,
      ih (fun x hx => hl x (List.mem_cons_of_mem _ hx))]

theorem dropWhile_all {p : Char → Bool} {l : List Char}
    (hl : ∀ x ∈ l, p x = true) : l.dropWhile p = [] := by
  induction l with
  | nil => rfl
  | cons a t ih =>
    rw [List.dropWhile_cons, hl a (List.mem_cons_self a t), if_pos rfl]
    exact ih (fun x hx => hl x (List.mem_cons_of_mem _ hx))

theorem prefix_append_of_le {core u v : List Char} (h : core <+: u ++ v)
    (hle : core.length ≤ u.length) : core <+: u := by
  rw [List.prefix_iff_eq_take] at h
  rw [List.take_append_eq_append_take, Nat.sub_eq_zero_of_le hle,
    List.take_zero, List.append_nil] at h
  rw [List.prefix_iff_eq_take]
  exact h

theorem regexSearch_of_some {α} {pat : List Char → Option α} {s : List Char} {a : α}
    (h : pat s = some a) : regexSearch pat s = some a := by
  cases s with
  | nil => simpa [regexSearch] using h
  | cons c t => simp [regexSearch, h]

theorem regexSearch_cons_none {α} {pat : List Char → Option α} {c : Char}
    {s : List Char} (h : pat (c :: s) = none) :
    regexSearch pat (c :: s) = regexSearch pat s := by
  simp [regexSearch, h]

theorem regexSearch_skip {α} {pat : List Char → Option α} {c₀ : Char} {core' : List Char}
    (hguard : ∀ t, pat t ≠ none → (c₀ :: core').isPrefixOf t = true)
    {u : List Char} (hu : c₀ ∉ u) (v : List Char) :
    regexSearch pat (u ++ v) = regexSearch pat v := by
  induction u with
  | nil => rfl
  | cons c t ih =>
    have hc : c ≠ c₀ := fun hh => hu (hh ▸ List.mem_cons_self c t)
    have hpat : pat (c :: (t ++ v)) = none := by
      by_contra hne
      have hp := hguard _ hne
      rw [List.isPrefixOf_cons₂] at hp
      simp only [Bool.and_eq_true, beq_iff_eq] at hp
      exact hc hp.1.symm
    rw [List.cons_append, regexSearch_cons_none hpat]
    exact ih (fun hm => hu (List.mem_cons_of_mem _ hm))

theorem regexSearch_none {α} {pat : List Char → Option α} {c₀ : Char} {core' : List Char}
    (hguard : ∀ t, pat t ≠ none → (c₀ :: core').isPrefixOf t = true)
    {s : List Char} (hs : c₀ ∉ s) : regexSearch pat s = none := by
  have h := regexSearch_skip hguard hs ([] : List Char)
  rw [List.append_nil] at h
  rw [h]
  show regexSearch pat [] = none
  cases hp : pat [] with
  | none => simpa [regexSearch] using hp
  | some a =>
    have := hguard [] (by simp [hp])
    simp at this

theorem matchDesktopAt_guard : ∀ t, matchDesktopAt t ≠ none →
    coreItem.isPrefixOf t = true := by
  intro t h
  by_contra hp
  rw [matchDesktopAt, if_neg hp] at h
  exact h rfl

theorem matchItemIdAt_guard : ∀ t, matchItemIdAt t ≠ none →
    coreItem.isPrefixOf t = true := by
  intro t h
  by_contra hp
  rw [matchItemIdAt, if_neg hp] at h
  exact h rfl

theorem matchStoreAt_guard : ∀ t, matchStoreAt t ≠ none →
    coreStore.isPrefixOf t = true := by
  intro t h
  by_contra hp
  rw [matchStoreAt, if_neg hp] at h
  exact h rfl

theorem matchShortAt_guard : ∀ t, matchShortAt t ≠ none →
    coreShort.isPrefixOf t = true := by
  intro t h
  by_contra hp
  rw [matchShortAt, if_neg hp] at h
  exact h rfl

theorem attachQueryParams_product_id (info : ProductInfo) (q : List Char) :
    (attachQueryParams info q).product_id = info.product_id := by
  unfold attachQueryParams
  cases firstSku q <;> cases parse_qs_first q "spm".data <;>
    cases parse_qs_first q "scm".data <;> rfl

theorem data_ne_nil {s : String} (h : s ≠ "") : s.data ≠ [] := by
  intro hd
  exact h (String.ext hd)

def sluggedURL (slug pid : String) : String :=
  "https://www.aliexpress.com/item/" ++ slug ++ "/" ++ pid ++ ".html"

def bareURL (pid : String) : String :=
  "https://www.aliexpress.com/item/" ++ pid ++ ".html"

def mobileURL (pid : String) : String :=
  "https://m.aliexpress.com/item/" ++ pid ++ ".html"

def storeURL (seg sid pid : String) : String :=
  "https://www.aliexpress.com/store/product/" ++ seg ++ "/" ++ sid ++ "_" ++ pid ++ ".html"

def pidOk (pid : String) : Prop := pid ≠ "" ∧ ∀ c ∈ pid.data, c.isDigit = true

theorem isPrefixOf_append_self (l r : List Char) : l.isPrefixOf (l ++ r) = true :=
  List.isPrefixOf_iff_prefix.mpr (List.prefix_append l r)

theorem not_isPrefixOf_long {core lit : List Char} (r : List Char)
    (hlen : core.length ≤ lit.length) (hne : core.isPrefixOf lit = false) :
    core.isPrefixOf (lit ++ r) = false := by
  by_contra h
  rw [Bool.not_eq_false, List.isPrefixOf_iff_prefix] at h
  have := prefix_append_of_le h hlen
  rw [← List.isPrefixOf_iff_prefix, hne] at this
  exact Bool.false_ne_true this

theorem splitScheme_https (x : List Char) :
    splitScheme ("https".data ++ ':' :: x) = x := by
  have hcons : ("https" : String).data ++ ':' :: x =
      'h' :: ("ttps".data ++ ':' :: x) := rfl
  rw [hcons]
  simp only [splitScheme]
  rw [if_pos (by decide)]
  have hdw : ('h' :: ("ttps".data ++ ':' :: x)).dropWhile schemeChar = ':' :: x := by
    rw [List.dropWhile_cons]
    rw [show schemeChar 'h' = true from rfl, if_pos rfl]
    exact dropWhile_append_stop (by decide) (by decide) x
  rw [hdw]
  rfl

theorem netlocOf_https (x : List Char) :
    netlocOf ("https".data ++ ':' :: ('/' :: '/' :: x)) =
      x.takeWhile (fun c => !urlDelim c) := by
  unfold netlocOf
  rw [splitScheme_https]
  rw [if_pos (by simp [List.isPrefixOf_cons₂, List.isPrefixOf_nil_left])]
  rfl

theorem is_aliexpress_url_netloc (u : String) {nl : List Char}
    (hn : netlocOf u.data = nl) :
    is_aliexpress_url u =
      (let domain := nl.map Char.toLower
       let domain := if ['w', 'w', 'w', '.'].isPrefixOf domain then domain.drop 4
         else domain
       domain == "aliexpress.com".data || domain == "m.aliexpress.com".data ||
         domain == "a.aliexpress.com".data) := by
  unfold is_aliexpress_url
  rw [hn]

-- the slugged family
theorem sluggedURL_data (slug pid : String) :
    (sluggedURL slug pid).data =
      "https".data ++ ':' :: ('/' :: '/' ::
        ("www.aliexpress.com".data ++ '/' ::
          ("item/".data ++ (slug.data ++ '/' :: (pid.data ++ ".html".data))))) := by
  unfold sluggedURL
  simp only [String.data_append, List.append_assoc, List.cons_append,
    List.singleton_append, List.nil_append]

theorem netlocOf_slugged (slug pid : String) :
    netlocOf (sluggedURL slug pid).data = "www.aliexpress.com".data := by
  rw [sluggedURL_data, netlocOf_https]
  exact takeWhile_append_stop (by decide) (by decide) _

theorem is_aliexpress_slugged (slug pid : String) :
    is_aliexpress_url (sluggedURL slug pid) = true := by
  rw [is_aliexpress_url_netloc _ (netlocOf_slugged slug pid)]
  decide

theorem isEmpty_false_of_ne_nil {l : List Char} (h : l ≠ []) : l.isEmpty = false := by
  cases l with
  | nil => exact absurd rfl h
  | cons a t => rfl

theorem notSlash_of_not_mem {l : List Char} (h : '/' ∉ l) :
    ∀ x ∈ l, notSlash x = true := by
  intro x hx
  simp only [notSlash, bne_iff_ne, ne_eq]
  intro hh
  exact h (hh ▸ hx)

theorem matchDesktopAt_core (slug pid : String) (hslug : slug ≠ "")
    (hns : '/' ∉ slug.data) (hpid : pidOk pid) :
    matchDesktopAt (coreItem ++ (slug.data ++ '/' :: (pid.data ++ ".html".data))) =
      some (slug.data, pid.data) := by
  have hslug' := notSlash_of_not_mem hns
  have htw : (slug.data ++ '/' :: (pid.data ++ ".html".data)).takeWhile notSlash
      = slug.data := takeWhile_append_stop hslug' (by decide) _
  have hdw : (slug.data ++ '/' :: (pid.data ++ ".html".data)).dropWhile notSlash
      = '/' :: (pid.data ++ ".html".data) := dropWhile_append_stop hslug' (by decide) _
  have htd : (pid.data ++ ".html".data).takeWhile Char.isDigit = pid.data := by
    rw [show (".html" : String).data = '.' :: "html".data from rfl]
    exact takeWhile_append_stop hpid.2 (by decide) _
  have hdd : (pid.data ++ ".html".data).dropWhile Char.isDigit
      = '.' :: "html".data := by
    rw [show (".html" : String).data = '.' :: "html".data from rfl]
    exact dropWhile_append_stop hpid.2 (by decide) _
  have hse : slug.data.isEmpty = false := isEmpty_false_of_ne_nil (data_ne_nil hslug)
  have hpe : pid.data.isEmpty = false := isEmpty_false_of_ne_nil (data_ne_nil hpid.1)
  simp only [matchDesktopAt, isPrefixOf_append_self, List.drop_left, htw, hdw, htd,
    hdd, hse, hpe, if_true, Bool.false_eq_true, if_false,
    show (".html" : String).data.isPrefixOf ('.' :: "html".data) = true from by decide]

theorem matchDesktopAt_guard' : ∀ t, matchDesktopAt t ≠ none →
    ('a' :: "liexpress.com/item/".data).isPrefixOf t = true := by
  intro t h
  have hg := matchDesktopAt_guard t h
  rw [show coreItem = 'a' :: "liexpress.com/item/".data from rfl] at hg
  exact hg

theorem sluggedURL_data2 (slug pid : String) :
    (sluggedURL slug pid).data =
      "https://www.".data ++
        (coreItem ++ (slug.data ++ '/' :: (pid.data ++ ".html".data))) := by
  unfold sluggedURL
  simp only [String.data_append, coreItem, List.append_assoc, List.cons_append,
    List.singleton_append, List.nil_append]

theorem regexSearch_desktop_slugged (slug pid : String) (hslug : slug ≠ "")
    (hns : '/' ∉ slug.data) (hpid : pidOk pid) :
    regexSearch matchDesktopAt (sluggedURL slug pid).data =
      some (slug.data, pid.data) := by
  rw [sluggedURL_data2]
  rw [regexSearch_skip matchDesktopAt_guard' (by decide)]
  exact regexSearch_of_some (matchDesktopAt_core slug pid hslug hns hpid)

theorem orElse_some' {α} (a : α) (f : Unit → Option α) :
    (some a).orElse f = some a := rfl

theorem orElse_none' {α} (f : Unit → Option α) :
    (Option.none : Option α).orElse f = f () := rfl

theorem parse_url_slugged (slug pid : String) (hslug : slug ≠ "")
    (hns : '/' ∉ slug.data) (hpid : pidOk pid) :
    (parse_url (sluggedURL slug pid)).map ProductInfo.product_id =
      some (some pid) := by
  have hax := is_aliexpress_slugged slug pid
  have hst : (startsWithStr (sluggedURL slug pid) "http://" ||
      startsWithStr (sluggedURL slug pid) "https://") = true := by
    have h2 : startsWithStr (sluggedURL slug pid) "https://" = true := by
      unfold startsWithStr
      rw [sluggedURL_data2]
      rw [show ("https://www." : String).data =
        "https://".data ++ "www.".data from rfl, List.append_assoc]
      exact isPrefixOf_append_self _ _
    rw [h2, Bool.or_true]
  have hsearch := regexSearch_desktop_slugged slug pid hslug hns hpid
  simp only [parse_url, hax, hst, Bool.not_true, Bool.false_eq_true, if_false,
    hsearch, Option.map_some', orElse_some', orElse_none']
  rw [attachQueryParams_product_id]

theorem notSlash_of_digit {c : Char} (h : c.isDigit = true) : notSlash c = true := by
  simp only [notSlash, bne_iff_ne, ne_eq]
  intro heq
  subst heq
  exact absurd h (by decide)

theorem ne_of_digit {c : Char} (h : c.isDigit = true) {d : Char}
    (hd : d.isDigit = false) : c ≠ d := by
  intro heq
  subst heq
  rw [h] at hd
  exact absurd hd (by decide)

theorem forall_mem_append {p : Char → Bool} {l1 l2 : List Char}
    (h1 : ∀ x ∈ l1, p x = true) (h2 : ∀ x ∈ l2, p x = true) :
    ∀ x ∈ l1 ++ l2, p x = true := by
  intro x hx
  rcases List.mem_append.mp hx with h | h
  · exact h1 x h
  · exact h2 x h

theorem not_mem_append {c : Char} {l1 l2 : List Char}
    (h1 : c ∉ l1) (h2 : c ∉ l2) : c ∉ l1 ++ l2 := by
  intro hx
  rcases List.mem_append.mp hx with h | h
  · exact h1 h
  · exact h2 h

theorem not_mem_of_digits {l : List Char} (hd : ∀ x ∈ l, x.isDigit = true)
    {c : Char} (hc : c.isDigit = false) : c ∉ l := by
  intro hm
  rw [hd c hm] at hc
  exact absurd hc (by decide)

-- the bare item family
theorem bareURL_data1 (pid : String) :
    (bareURL pid).data =
      "https".data ++ ':' :: ('/' :: '/' ::
        ("www.aliexpress.com".data ++ '/' :: ("item/".data ++ (pid.data ++ ".html".data)))) := by
  unfold bareURL
  simp only [String.data_append, List.append_assoc, List.cons_append,
    List.singleton_append, List.nil_append]

theorem bareURL_data2 (pid : String) :
    (bareURL pid).data =
      "https://www.".data ++ (coreItem ++ (pid.data ++ ".html".data)) := by
  unfold bareURL
  simp only [String.data_append, coreItem, List.append_assoc, List.cons_append,
    List.singleton_append, List.nil_append]

theorem is_aliexpress_bare (pid : String) :
    is_aliexpress_url (bareURL pid) = true := by
  have hn : netlocOf (bareURL pid).data = "www.aliexpress.com".data := by
    rw [bareURL_data1, netlocOf_https]
    exact takeWhile_append_stop (by decide) (by decide) _
  rw [is_aliexpress_url_netloc _ hn]
  decide

theorem matchDesktopAt_bare_core (pid : String) (hpid : pidOk pid) :
    matchDesktopAt (coreItem ++ (pid.data ++ ".html".data)) = none := by
  have hall : ∀ x ∈ pid.data ++ ".html".data, notSlash x = true :=
    forall_mem_append (fun x hx => notSlash_of_digit (hpid.2 x hx)) (by decide)
  simp only [matchDesktopAt, isPrefixOf_append_self, List.drop_left,
    takeWhile_all hall, dropWhile_all hall, if_true,
    isEmpty_false_of_ne_nil (show pid.data ++ ".html".data ≠ [] by simp),
    Bool.false_eq_true, if_false]

theorem matchItemIdAt_core (pid : String) (hpid : pidOk pid) :
    matchItemIdAt (coreItem ++ (pid.data ++ ".html".data)) = some pid.data := by
  have htd : (pid.data ++ ".html".data).takeWhile Char.isDigit = pid.data := by
    rw [show (".html" : String).data = '.' :: "html".data from rfl]
    exact takeWhile_append_stop hpid.2 (by decide) _
  have hdd : (pid.data ++ ".html".data).dropWhile Char.isDigit
      = '.' :: "html".data := by
    rw [show (".html" : String).data = '.' :: "html".data from rfl]
    exact dropWhile_append_stop hpid.2 (by decide) _
  simp only [matchItemIdAt, isPrefixOf_append_self, List.drop_left, htd, hdd,
    isEmpty_false_of_ne_nil (data_ne_nil hpid.1), Bool.false_eq_true, if_false,
    if_true, show (".html" : String).data.isPrefixOf ('.' :: "html".data) = true
      from by decide]

theorem matchItemIdAt_guard' : ∀ t, matchItemIdAt t ≠ none →
    ('a' :: "liexpress.com/item/".data).isPrefixOf t = true := by
  intro t h
  have hg := matchItemIdAt_guard t h
  rw [show coreItem = 'a' :: "liexpress.com/item/".data from rfl] at hg
  exact hg

theorem not_mem_a_bare (pid : String) (hpid : pidOk pid) :
    'a' ∉ "liexpress.com/item/".data ++ (pid.data ++ ".html".data) :=
  not_mem_append (by decide)
    (not_mem_append (not_mem_of_digits hpid.2 (by decide)) (by decide))

theorem regexSearch_desktop_bare (pid : String) (hpid : pidOk pid) :
    regexSearch matchDesktopAt (bareURL pid).data = none := by
  rw [bareURL_data2]
  rw [regexSearch_skip matchDesktopAt_guard' (by decide)]
  rw [show coreItem ++ (pid.data ++ ".html".data) =
    'a' :: ("liexpress.com/item/".data ++ (pid.data ++ ".html".data)) from rfl]
  rw [regexSearch_cons_none
    (show matchDesktopAt ('a' :: ("liexpress.com/item/".data ++
        (pid.data ++ ".html".data))) = none from matchDesktopAt_bare_core pid hpid)]
  exact regexSearch_none matchDesktopAt_guard' (not_mem_a_bare pid hpid)

theorem regexSearch_itemid_bare (pid : String) (hpid : pidOk pid) :
    regexSearch matchItemIdAt (bareURL pid).data = some pid.data := by
  rw [bareURL_data2]
  rw [regexSearch_skip matchItemIdAt_guard' (by decide)]
  exact regexSearch_of_some (matchItemIdAt_core pid hpid)

theorem parse_url_bare (pid : String) (hpid : pidOk pid) :
    (parse_url (bareURL pid)).map ProductInfo.product_id = some (some pid) := by
  have hax := is_aliexpress_bare pid
  have hst : (startsWithStr (bareURL pid) "http://" ||
      startsWithStr (bareURL pid) "https://") = true := by
    have h2 : startsWithStr (bareURL pid) "https://" = true := by
      unfold startsWithStr
      rw [bareURL_data2]
      rw [show ("https://www." : String).data =
        "https://".data ++ "www.".data from rfl, List.append_assoc]
      exact isPrefixOf_append_self _ _
    rw [h2, Bool.or_true]
  simp only [parse_url, hax, hst, Bool.not_true, Bool.false_eq_true, if_false,
    regexSearch_desktop_bare pid hpid, regexSearch_itemid_bare pid hpid,
    Option.map_none', Option.map_some', orElse_some', orElse_none']
  rw [attachQueryParams_product_id]

-- the mobile item family
theorem mobileURL_data1 (pid : String) :
    (mobileURL pid).data =
      "https".data ++ ':' :: ('/' :: '/' ::
        ("m.aliexpress.com".data ++ '/' ::
          ("item/".data ++ (pid.data ++ ".html".data)))) := by
  unfold mobileURL
  simp only [String.data_append, List.append_assoc, List.cons_append,
    List.singleton_append, List.nil_append]

theorem mobileURL_data2 (pid : String) :
    (mobileURL pid).data =
      "https://m.".data ++ (coreItem ++ (pid.data ++ ".html".data)) := by
  unfold mobileURL
  simp only [String.data_append, coreItem, List.append_assoc, List.cons_append,
    List.singleton_append, List.nil_append]

theorem is_aliexpress_mobile (pid : String) :
    is_aliexpress_url (mobileURL pid) = true := by
  have hn : netlocOf (mobileURL pid).data = "m.aliexpress.com".data := by
    rw [mobileURL_data1, netlocOf_https]
    exact takeWhile_append_stop (by decide) (by decide) _
  rw [is_aliexpress_url_netloc _ hn]
  decide

theorem regexSearch_desktop_mobile (pid : String) (hpid : pidOk pid) :
    regexSearch matchDesktopAt (mobileURL pid).data = none := by
  rw [mobileURL_data2]
  rw [regexSearch_skip matchDesktopAt_guard' (by decide)]
  rw [show coreItem ++ (pid.data ++ ".html".data) =
    'a' :: ("liexpress.com/item/".data ++ (pid.data ++ ".html".data)) from rfl]
  rw [regexSearch_cons_none
    (show matchDesktopAt ('a' :: ("liexpress.com/item/".data ++
        (pid.data ++ ".html".data))) = none from matchDesktopAt_bare_core pid hpid)]
  exact regexSearch_none matchDesktopAt_guard' (not_mem_a_bare pid hpid)

theorem regexSearch_itemid_mobile (pid : String) (hpid : pidOk pid) :
    regexSearch matchItemIdAt (mobileURL pid).data = some pid.data := by
  rw [mobileURL_data2]
  rw [regexSearch_skip matchItemIdAt_guard' (by decide)]
  exact regexSearch_of_some (matchItemIdAt_core pid hpid)

theorem parse_url_mobile (pid : String) (hpid : pidOk pid) :
    (parse_url (mobileURL pid)).map ProductInfo.product_id = some (some pid) := by
  have hax := is_aliexpress_mobile pid
  have hst : (startsWithStr (mobileURL pid) "http://" ||
      startsWithStr (mobileURL pid) "https://") = true := by
    have h2 : startsWithStr (mobileURL pid) "https://" = true := by
      unfold startsWithStr
      rw [mobileURL_data2]
      rw [show ("https://m." : String).data =
        "https://".data ++ "m.".data from rfl, List.append_assoc]
      exact isPrefixOf_append_self _ _
    rw [h2, Bool.or_true]
  simp only [parse_url, hax, hst, Bool.not_true, Bool.false_eq_true, if_false,
    regexSearch_desktop_mobile pid hpid, regexSearch_itemid_mobile pid hpid,
    Option.map_none', Option.map_some', orElse_some', orElse_none']
  rw [attachQueryParams_product_id]

-- the store product family
theorem storeURL_data1 (seg sid pid : String) :
    (storeURL seg sid pid).data =
      "https".data ++ ':' :: ('/' :: '/' ::
        ("www.aliexpress.com".data ++ '/' ::
          ("store/product/".data ++
            (seg.data ++ '/' :: (sid.data ++ '_' :: (pid.data ++ ".html".data)))))) := by
  unfold storeURL
  simp only [String.data_append, List.append_assoc, List.cons_append,
    List.singleton_append, List.nil_append]

theorem storeURL_data2 (seg sid pid : String) :
    (storeURL seg sid pid).data =
      "https://www.".data ++
        (coreStore ++
          (seg.data ++ '/' :: (sid.data ++ '_' :: (pid.data ++ ".html".data)))) := by
  unfold storeURL
  simp only [String.data_append, coreStore, List.append_assoc, List.cons_append,
    List.singleton_append, List.nil_append]

theorem is_aliexpress_store (seg sid pid : String) :
    is_aliexpress_url (storeURL seg sid pid) = true := by
  have hn : netlocOf (storeURL seg sid pid).data = "www.aliexpress.com".data := by
    rw [storeURL_data1, netlocOf_https]
    exact takeWhile_append_stop (by decide) (by decide) _
  rw [is_aliexpress_url_netloc _ hn]
  decide

theorem desktopish_none_at_store {pat : List Char → Option α}
    (hguard : ∀ t, pat t ≠ none → coreItem.isPrefixOf t = true)
    (X : List Char) : pat (coreStore ++ X) = none := by
  by_contra h
  have := hguard _ h
  rw [not_isPrefixOf_long X (by decide)
    (show coreItem.isPrefixOf coreStore = false from by decide)] at this
  exact Bool.false_ne_true this

theorem matchStoreAt_core (seg sid pid : String) (hseg : seg ≠ "")
    (hns : '/' ∉ seg.data) (hsid : pidOk sid) (hpid : pidOk pid) :
    matchStoreAt (coreStore ++
        (seg.data ++ '/' :: (sid.data ++ '_' :: (pid.data ++ ".html".data)))) =
      some (sid.data, pid.data) := by
  have hseg' := notSlash_of_not_mem hns
  have htw : (seg.data ++ '/' :: (sid.data ++ '_' ::
      (pid.data ++ ".html".data))).takeWhile notSlash = seg.data :=
    takeWhile_append_stop hseg' (by decide) _
  have hdw : (seg.data ++ '/' :: (sid.data ++ '_' ::
      (pid.data ++ ".html".data))).dropWhile notSlash =
      '/' :: (sid.data ++ '_' :: (pid.data ++ ".html".data)) :=
    dropWhile_append_stop hseg' (by decide) _
  have htd1 : (sid.data ++ '_' :: (pid.data ++ ".html".data)).takeWhile Char.isDigit
      = sid.data := takeWhile_append_stop hsid.2 (by decide) _
  have hdd1 : (sid.data ++ '_' :: (pid.data ++ ".html".data)).dropWhile Char.isDigit
      = '_' :: (pid.data ++ ".html".data) :=
    dropWhile_append_stop hsid.2 (by decide) _
  have htd2 : (pid.data ++ ".html".data).takeWhile Char.isDigit = pid.data := by
    rw [show (".html" : String).data = '.' :: "html".data from rfl]
    exact takeWhile_append_stop hpid.2 (by decide) _
  have hdd2 : (pid.data ++ ".html".data).dropWhile Char.isDigit
      = '.' :: "html".data := by
    rw [show (".html" : String).data = '.' :: "html".data from rfl]
    exact dropWhile_append_stop hpid.2 (by decide) _
  simp only [matchStoreAt, isPrefixOf_append_self, List.drop_left, htw, hdw, htd1,
    hdd1, htd2, hdd2, isEmpty_false_of_ne_nil (data_ne_nil hseg),
    isEmpty_false_of_ne_nil (data_ne_nil hsid.1),
    isEmpty_false_of_ne_nil (data_ne_nil hpid.1), Bool.false_eq_true, if_false,
    if_true, show (".html" : String).data.isPrefixOf ('.' :: "html".data) = true
      from by decide]

theorem matchStoreAt_guard' : ∀ t, matchStoreAt t ≠ none →
    ('a' :: "liexpress.com/store/product/".data).isPrefixOf t = true := by
  intro t h
  have hg := matchStoreAt_guard t h
  rw [show coreStore = 'a' :: "liexpress.com/store/product/".data from rfl] at hg
  exact hg

theorem regexSearch_store_store (seg sid pid : String) (hseg : seg ≠ "")
    (hns : '/' ∉ seg.data) (hsid : pidOk sid) (hpid : pidOk pid) :
    regexSearch matchStoreAt (storeURL seg sid pid).data =
      some (sid.data, pid.data) := by
  rw [storeURL_data2]
  rw [regexSearch_skip matchStoreAt_guard' (by decide)]
  exact regexSearch_of_some (matchStoreAt_core seg sid pid hseg hns hsid hpid)

theorem coreItem_not_prefix_window {w : List Char} (hw : '/' ∉ w)
    {s0 : Char} (hs0 : s0.isDigit = true) (t2 : List Char) :
    coreItem.isPrefixOf (w ++ '/' :: s0 :: t2) = false := by
  by_contra hcon
  rw [Bool.not_eq_false, List.isPrefixOf_iff_prefix] at hcon
  rcases Nat.lt_or_ge w.length 20 with hlt | hge
  · obtain ⟨t, hEq⟩ := hcon
    have hslash : coreItem[w.length]? = some '/' := by
      have h1 : (coreItem ++ t)[w.length]? = coreItem[w.length]? :=
        List.getElem?_append_left (by rw [show coreItem.length = 20 from rfl]; omega)
      have h2 : (w ++ '/' :: s0 :: t2)[w.length]? = some '/' := by
        rw [List.getElem?_append_right (le_refl _), Nat.sub_self]
        simp
      rw [← h1, hEq, h2]
    rcases Nat.lt_or_ge w.length 19 with h19 | h19ge
    · have hn14 : w.length = 14 := by
        have h20 : w.length < 20 := hlt
        interval_cases h : w.length <;> first | rfl | (exact absurd hslash (by decide))
      have hnext : coreItem[15]? = some s0 := by
        have h1 : (coreItem ++ t)[15]? = coreItem[15]? :=
          List.getElem?_append_left (by rw [show coreItem.length = 20 from rfl]; omega)
        have h2 : (w ++ '/' :: s0 :: t2)[15]? = some s0 := by
          rw [List.getElem?_append_right (by omega)]
          rw [show 15 - w.length = 1 from by omega]
          simp
        rw [← h1, hEq, h2]
      rw [show coreItem[15]? = some 'i' from by decide] at hnext
      have : s0 = 'i' := by injection hnext.symm
      rw [this] at hs0
      exact absurd hs0 (by decide)
    · have hn19 : w.length = 19 := by omega
      have htake : coreItem.take w.length = w := by
        have h1 : (coreItem ++ t).take w.length = coreItem.take w.length := by
          rw [List.take_append_eq_append_take,
            Nat.sub_eq_zero_of_le (by rw [show coreItem.length = 20 from rfl]; omega),
            List.take_zero, List.append_nil]
        have h2 : (w ++ '/' :: s0 :: t2).take w.length = w := List.take_left _ _
        rw [← h1, hEq, h2]
      have hmem : '/' ∈ coreItem.take w.length := by
        rw [hn19]
        decide
      rw [htake] at hmem
      exact hw hmem
  · have hpre : coreItem <+: w := prefix_append_of_le hcon
      (by rw [show coreItem.length = 20 from rfl]; omega)
    exact hw (hpre.subset (by decide))

theorem regexSearch_none_store_tail {α} {pat : List Char → Option α}
    (hguard : ∀ t, pat t ≠ none → coreItem.isPrefixOf t = true)
    (hguard' : ∀ t, pat t ≠ none →
      ('a' :: "liexpress.com/item/".data).isPrefixOf t = true)
    (seg : List Char) (hseg : '/' ∉ seg) (sid pid : String)
    (hsid : pidOk sid) (hpid : pidOk pid) :
    regexSearch pat
      (seg ++ '/' :: (sid.data ++ '_' :: (pid.data ++ ".html".data))) = none := by
  induction seg with
  | nil =>
    rw [List.nil_append]
    apply regexSearch_none hguard'
    intro hm
    rcases List.mem_cons.mp hm with h | h
    · exact absurd h (by decide)
    rcases List.mem_append.mp h with h | h
    · exact absurd (hsid.2 'a' h) (by decide)
    rcases List.mem_cons.mp h with h | h
    · exact absurd h (by decide)
    rcases List.mem_append.mp h with h | h
    · exact absurd (hpid.2 'a' h) (by decide)
    · exact absurd h (by decide)
  | cons c w ih =>
    have hw : '/' ∉ w := fun hm => hseg (List.mem_cons_of_mem _ hm)
    obtain ⟨s0, srest, hsid_eq⟩ : ∃ s0 srest, sid.data = s0 :: srest := by
      cases hh : sid.data with
      | nil => exact absurd (String.ext hh) hsid.1
      | cons a b => exact ⟨a, b, rfl⟩
    have hs0 : s0.isDigit = true :=
      hsid.2 s0 (by rw [hsid_eq]; exact List.mem_cons_self _ _)
    have hpat : pat ((c :: w) ++ '/' ::
        (sid.data ++ '_' :: (pid.data ++ ".html".data))) = none := by
      by_contra h
      have hg := hguard _ h
      rw [hsid_eq] at hg
      rw [show (s0 :: srest) ++ '_' :: (pid.data ++ ".html".data) =
        s0 :: (srest ++ '_' :: (pid.data ++ ".html".data)) from rfl] at hg
      rw [coreItem_not_prefix_window hseg hs0 _] at hg
      exact Bool.false_ne_true hg
    rw [List.cons_append, regexSearch_cons_none
      (show pat (c :: (w ++ '/' ::
        (sid.data ++ '_' :: (pid.data ++ ".html".data)))) = none from hpat)]
    exact ih hw

theorem regexSearch_desktop_store (seg sid pid : String) (hns : '/' ∉ seg.data)
    (hsid : pidOk sid) (hpid : pidOk pid) :
    regexSearch matchDesktopAt (storeURL seg sid pid).data = none := by
  rw [storeURL_data2]
  rw [regexSearch_skip matchDesktopAt_guard' (by decide)]
  rw [show coreStore ++ (seg.data ++ '/' :: (sid.data ++ '_' ::
      (pid.data ++ ".html".data))) =
    'a' :: ("liexpress.com/store/product/".data ++
      (seg.data ++ '/' :: (sid.data ++ '_' :: (pid.data ++ ".html".data)))) from rfl]
  rw [regexSearch_cons_none
    (show matchDesktopAt ('a' :: ("liexpress.com/store/product/".data ++
        (seg.data ++ '/' :: (sid.data ++ '_' :: (pid.data ++ ".html".data))))) = none
      from desktopish_none_at_store matchDesktopAt_guard _)]
  rw [regexSearch_skip matchDesktopAt_guard' (by decide)]
  exact regexSearch_none_store_tail matchDesktopAt_guard matchDesktopAt_guard'
    seg.data hns sid pid hsid hpid

theorem regexSearch_itemid_store (seg sid pid : String) (hns : '/' ∉ seg.data)
    (hsid : pidOk sid) (hpid : pidOk pid) :
    regexSearch matchItemIdAt (storeURL seg sid pid).data = none := by
  rw [storeURL_data2]
  rw [regexSearch_skip matchItemIdAt_guard' (by decide)]
  rw [show coreStore ++ (seg.data ++ '/' :: (sid.data ++ '_' ::
      (pid.data ++ ".html".data))) =
    'a' :: ("liexpress.com/store/product/".data ++
      (seg.data ++ '/' :: (sid.data ++ '_' :: (pid.data ++ ".html".data)))) from rfl]
  rw [regexSearch_cons_none
    (show matchItemIdAt ('a' :: ("liexpress.com/store/product/".data ++
        (seg.data ++ '/' :: (sid.data ++ '_' :: (pid.data ++ ".html".data))))) = none
      from desktopish_none_at_store matchItemIdAt_guard _)]
  rw [regexSearch_skip matchItemIdAt_guard' (by decide)]
  exact regexSearch_none_store_tail matchItemIdAt_guard matchItemIdAt_guard'
    seg.data hns sid pid hsid hpid

theorem parse_url_store (seg sid pid : String) (hseg : seg ≠ "")
    (hns : '/' ∉ seg.data) (hsid : pidOk sid) (hpid : pidOk pid) :
    (parse_url (storeURL seg sid pid)).map ProductInfo.product_id =
      some (some pid) := by
  have hax := is_aliexpress_store seg sid pid
  have hst : (startsWithStr (storeURL seg sid pid) "http://" ||
      startsWithStr (storeURL seg sid pid) "https://") = true := by
    have h2 : startsWithStr (storeURL seg sid pid) "https://" = true := by
      unfold startsWithStr
      rw [storeURL_data2]
      rw [show ("https://www." : String).data =
        "https://".data ++ "www.".data from rfl, List.append_assoc]
      exact isPrefixOf_append_self _ _
    rw [h2, Bool.or_true]
  simp only [parse_url, hax, hst, Bool.not_true, Bool.false_eq_true, if_false,
    regexSearch_desktop_store seg sid pid hns hsid hpid,
    regexSearch_itemid_store seg sid pid hns hsid hpid,
    regexSearch_store_store seg sid pid hseg hns hsid hpid,
    Option.map_none', Option.map_some', orElse_some', orElse_none']
  rw [attachQueryParams_product_id]

theorem parse_url_not_aliexpress (url : String)
    (h : is_aliexpress_url url = false) : parse_url url = none := by
  simp only [parse_url, h, Bool.not_false, if_true]

/-- C5: for every URL of a supported link shape — slugged item
(`…/item/<slug>/<id>.html`, any non-empty slash-free slug), bare item
(`…/item/<id>.html`), mobile item (`m.aliexpress.com/item/<id>.html`) and
store item (`…/store/product/<seg>/<storeId>_<id>.html`), each with a
non-empty all-digit identifier — `parse_url` extracts exactly the numeric
product identifier embedded in the path; and for every URL whose host
(after stripping a leading `www.`) is not in the fixed allow-list
(`is_aliexpress_url` is false), `parse_url` returns `none` regardless of
path shape (the embedding is total, so no exception can be raised).  The
mobile shape is matched by the `desktop_alt` pattern — its optional `www.`
prefix lets `re.search` find the mandatory `aliexpress.com/item/` core
inside `m.aliexpress.com/…` — before the `mobile` pattern is consulted;
the extracted identifier is the same. -/
theorem C5_resolve_shapes :
    (∀ slug pid : String, slug ≠ "" → '/' ∉ slug.data → pidOk pid →
      (parse_url (sluggedURL slug pid)).map ProductInfo.product_id = some (some pid))
    ∧ (∀ pid : String, pidOk pid →
      (parse_url (bareURL pid)).map ProductInfo.product_id = some (some pid))
    ∧ (∀ pid : String, pidOk pid →
      (parse_url (mobileURL pid)).map ProductInfo.product_id = some (some pid))
    ∧ (∀ seg sid pid : String, seg ≠ "" → '/' ∉ seg.data →
      pidOk sid → pidOk pid →
      (parse_url (storeURL seg sid pid)).map ProductInfo.product_id = some (some pid))
    ∧ (∀ url : String, is_aliexpress_url url = false → parse_url url = none) :=
  ⟨parse_url_slugged, parse_url_bare, parse_url_mobile, parse_url_store,
    parse_url_not_aliexpress⟩

/-- C5, witness: one concrete URL per shape, plus a non-allow-listed
host. -/
theorem C5_resolve_shapes_witness :
    (parse_url (sluggedURL "vacuum-cleaner" "1005001234567890")).map
        ProductInfo.product_id = some (some "1005001234567890")
    ∧ (parse_url (bareURL "123456789")).map ProductInfo.product_id =
        some (some "123456789")
    ∧ (parse_url (mobileURL "55667788")).map ProductInfo.product_id =
        some (some "55667788")
    ∧ (parse_url (storeURL "table-lamp" "1102" "99887766")).map
        ProductInfo.product_id = some (some "99887766")
    ∧ parse_url "https://www.example.com/item/123.html" = none :=
  ⟨C5_resolve_shapes.1 _ _ (by decide) (by decide) ⟨by decide, by decide⟩,
   C5_resolve_shapes.2.1 _ ⟨by decide, by decide⟩,
   C5_resolve_shapes.2.2.1 _ ⟨by decide, by decide⟩,
   C5_resolve_shapes.2.2.2.1 _ _ _ (by decide) (by decide)
     ⟨by decide, by decide⟩ ⟨by decide, by decide⟩,
   C5_resolve_shapes.2.2.2.2 _ (by decide)⟩

/-- C6, counterexample: the spec's example URL has host
`www.example.com`, which the domain check rejects (consistent with the
spec's own domain-check rule), so `parse_url` returns `none` for it —
not a match with `productId = "123456789"`. -/
theorem C6_counterexample :
    parse_url "https://www.example.com/item/abc/123456789.html?sku_id=55" = none := by
  decide

/-- C6, amended: on the allow-listed host `www.aliexpress.com` the same
path and query resolve to `productId = "123456789"` (with slug `"abc"`)
and `skuId = "55"`. -/
theorem C6_amended :
    parse_url "https://www.aliexpress.com/item/abc/123456789.html?sku_id=55" =
      some ⟨some "123456789", some "abc", none, none, false, some "55", none, none⟩ := by
  decide

/-- C10, amended: for every input string whose parsed host (`urlparse`
netloc) is empty — in particular strings with no scheme and no leading
`//`, such as `www.aliexpress.com/item/123456789.html` — `parse_url`
returns `none`, because the domain check runs on the raw input and sees an
empty host.  (The original claim's blanket statement over all inputs not
beginning with `http://`/`https://` is refuted by `C10_counterexample`:
an uppercase-scheme input parses to an allow-listed host and resolves.) -/
theorem C10_amended :
    (∀ url : String, netlocOf url.data = [] → parse_url url = none)
    ∧ parse_url "www.aliexpress.com/item/123456789.html" = none := by
  constructor
  · intro url h
    have hax : is_aliexpress_url url = false := by
      rw [is_aliexpress_url_netloc url h]
      decide
    exact parse_url_not_aliexpress url hax
  · decide

/-- C10, witness for the amended theorem at a bare scheme-less URL. -/
theorem C10_amended_witness :
    parse_url "aliexpress.com/item/55667788.html" = none :=
  C10_amended.1 _ (by decide)

/-- C10, counterexample: `"HTTP://www.aliexpress.com/item/123456789.html"`
does not begin with `http://` or `https://`, yet `urlparse` lowercases the
scheme, the domain check passes, and `parse_url` resolves the link — so
the claim as stated is false. -/
theorem C10_counterexample :
    startsWithStr "HTTP://www.aliexpress.com/item/123456789.html" "http://" = false
    ∧ startsWithStr "HTTP://www.aliexpress.com/item/123456789.html" "https://" = false
    ∧ parse_url "HTTP://www.aliexpress.com/item/123456789.html" ≠ none := by
  refine ⟨by decide, by decide, by decide⟩

-- stronger window lemma: drop the no-'a' restriction on the store segment
end AliExpressBot
